import Mathlib

/-!
Shallow embedding of `conn_pool.go` (package couchbase): a bounded pool of
memcached client connections built from two Go channels,

  * `connections chan *memcached.Client` — the ready-queue, buffer `poolSize`;
  * `createsem chan bool` — the capacity token, buffer `poolSize + poolOverflow`.

Channels are modelled explicitly: the ready-queue is a list together with a
closed flag (`close(cp.connections)`), and `createsem` is the number of tokens
currently held (values sent and not yet received).  Go `select` nondeterminism
is modelled by a branch-choice argument constrained by an enabledness
predicate: a receive branch is ready iff the channel is non-empty or closed, a
send branch on `createsem` is ready iff the buffer has room, and a timer
branch is always ready.  A blocking receive `<-cp.createsem` on an empty
semaphore is modelled as a distinguished `blocked` outcome.  Calls into the
connection object (`IsHealthy`, `Close`, `StartTapFeed`) and into the factory
`mkConn` are recorded in an effect list, mirroring the order in which the Go
code makes them.
-/

namespace ConnPool

/-- A `*memcached.Client`: opaque except for its identity and the value its
`IsHealthy()` method reports. -/
structure Conn where
  id : Nat
  healthy : Bool
deriving DecidableEq, Repr

/-- The errors `GetWithTimeout` / `StartTapFeed` can return: `errors.New("no pool")`,
`closedPool`, `TimeoutError`, or an error propagated from `cp.mkConn` (opaque,
identified by a code). -/
inductive Err where
  | noPool
  | closedPool
  | timeout
  | factory (code : Nat)
deriving DecidableEq, Repr

/-- The `connectionPool` struct: `host`, the `connections` channel (buffered
list plus closed flag), and `createsem` as the count of tokens currently held.
`poolSize` and `poolOverflow` record the channel capacities fixed at
construction; `mkConn` and `auth` are external and appear as choice
parameters of the operations instead. -/
structure PoolState where
  host : String
  poolSize : Nat
  poolOverflow : Nat
  connections : List Conn
  connClosed : Bool
  createsem : Nat
deriving DecidableEq, Repr

/-- `newConnectionPool`: empty ready-queue of capacity `poolSize`, empty
capacity semaphore of capacity `poolSize + poolOverflow`. -/
def newConnectionPool (host : String) (poolSize poolOverflow : Nat) : PoolState :=
  { host := host
    poolSize := poolSize
    poolOverflow := poolOverflow
    connections := []
    connClosed := false
    createsem := 0 }

/-- Externally visible calls the pool makes on its collaborators, in program
order: `c.IsHealthy()`, `c.Close()`, `cp.mkConn(...)`, `mc.StartTapFeed(...)`. -/
inductive Effect where
  | healthCheck (c : Conn)
  | closeConn (c : Conn)
  | factoryCall
  | feedStart (c : Conn)
deriving DecidableEq, Repr

/-- Outcome of `cp.mkConn(cp.host, cp.auth)`, supplied by the environment. -/
inductive FactoryResult where
  | ok (c : Conn)
  | fail (code : Nat)
deriving DecidableEq, Repr

/-- Which branch of `GetWithTimeout`'s two-tier select race wins:
the first select's receive (`fastRecv`), or — after the 1ms timer fires —
the second select's receive (`slowRecv`), its send on `createsem`
(`slowCreate`, carrying the factory's outcome), or the full timeout. -/
inductive GetBranch where
  | fastRecv
  | slowRecv
  | slowCreate (fr : FactoryResult)
  | slowTimeout
deriving DecidableEq, Repr

/-- Go readiness of each select branch: a receive from `cp.connections` is
ready iff the channel is non-empty or closed; the send `cp.createsem <- true`
is ready iff the semaphore buffer has room; a timer firing is always
possible. -/
def getBranchEnabled (s : PoolState) : GetBranch → Bool
  | .fastRecv => !s.connections.isEmpty || s.connClosed
  | .slowRecv => !s.connections.isEmpty || s.connClosed
  | .slowCreate _ => decide (s.createsem < s.poolSize + s.poolOverflow)
  | .slowTimeout => true

/-- Result of `GetWithTimeout`: a connection or an error. -/
inductive GetResult where
  | ok (c : Conn)
  | err (e : Err)
deriving DecidableEq, Repr

/-- Post-state, result and emitted external calls of one `GetWithTimeout`. -/
structure GetOut where
  state : PoolState
  result : GetResult
  effects : List Effect
deriving DecidableEq, Repr

/-- Body of `GetWithTimeout` after the nil check, for the winning branch:
a receive pops the queue head (or yields `closedPool` when the drained channel
is closed); `slowCreate` first occupies a semaphore slot, then calls `mkConn`,
releasing the slot again (`<-cp.createsem`) iff the factory failed; the timer
branch returns `TimeoutError`. -/
def getStep (s : PoolState) (br : GetBranch) : GetOut :=
  match br with
  | .fastRecv | .slowRecv =>
    match s.connections with
    | c :: rest => ⟨{ s with connections := rest }, .ok c, []⟩
    | [] => ⟨s, .err .closedPool, []⟩
  | .slowCreate fr =>
    let s1 := { s with createsem := s.createsem + 1 }
    match fr with
    | .ok c => ⟨s1, .ok c, [.factoryCall]⟩
    | .fail e => ⟨{ s1 with createsem := s1.createsem - 1 }, .err (.factory e), [.factoryCall]⟩
  | .slowTimeout => ⟨s, .err .timeout, []⟩

/-- `GetWithTimeout` including the `cp == nil` guard. -/
def getWithTimeout (cp : Option PoolState) (br : GetBranch) :
    Option PoolState × GetResult × List Effect :=
  match cp with
  | none => (none, .err .noPool, [])
  | some s =>
    let o := getStep s br
    (some o.state, o.result, o.effects)

/-- How one call to `Return` resolved. -/
inductive RetAction where
  | enqueued
  | retiredOverflow
  | closedPanic
  | retiredUnhealthy
  | blockedSem
deriving DecidableEq, Repr

/-- Post-state, resolution and emitted external calls of one `Return`. -/
structure RetOut where
  state : PoolState
  action : RetAction
  effects : List Effect
deriving DecidableEq, Repr

/-- Body of `Return` after the nil checks.  `c.IsHealthy()` is always called
first.  Healthy: sending on the closed queue panics and the deferred recover
just closes the connection (`closedPanic`, no semaphore release); otherwise the
select's send succeeds iff the buffer has room, else the default branch
receives a token (`<-cp.createsem`, blocking when none is held) and closes the
connection.  Unhealthy: receive a token and close the connection. -/
def returnStep (s : PoolState) (c : Conn) : RetOut :=
  if c.healthy then
    if s.connClosed then
      ⟨s, .closedPanic, [.healthCheck c, .closeConn c]⟩
    else if s.connections.length < s.poolSize then
      ⟨{ s with connections := s.connections ++ [c] }, .enqueued, [.healthCheck c]⟩
    else if s.createsem = 0 then
      ⟨s, .blockedSem, [.healthCheck c]⟩
    else
      ⟨{ s with createsem := s.createsem - 1 }, .retiredOverflow,
        [.healthCheck c, .closeConn c]⟩
  else
    if s.createsem = 0 then
      ⟨s, .blockedSem, [.healthCheck c]⟩
    else
      ⟨{ s with createsem := s.createsem - 1 }, .retiredUnhealthy,
        [.healthCheck c, .closeConn c]⟩

/-- `Return` including the `cp == nil || c == nil` guard. -/
def returnConn (cp : Option PoolState) (c : Option Conn) :
    Option PoolState × List Effect :=
  match cp, c with
  | some s, some conn =>
    let o := returnStep s conn
    (some o.state, o.effects)
  | _, _ => (cp, [])

/-- Post-state, emitted `Close` calls and recovered-panic flag of `Close`. -/
structure CloseOut where
  state : PoolState
  effects : List Effect
  panicked : Bool
deriving DecidableEq, Repr

/-- `Close`: `close(cp.connections)` panics if the channel is already closed
(the deferred recover turns that into a returned error); otherwise the range
loop drains every buffered connection and closes each. -/
def closePool (s : PoolState) : CloseOut :=
  if s.connClosed then
    ⟨s, [], true⟩
  else
    ⟨{ s with connClosed := true, connections := [] },
      s.connections.map (fun c => .closeConn c), false⟩

/-- Outcome of `mc.StartTapFeed(*args)`, supplied by the environment. -/
inductive FeedResult where
  | ok
  | fail (code : Nat)
deriving DecidableEq, Repr

/-- How one call to `StartTapFeed` resolved. -/
inductive TapOutcome where
  | ok (c : Conn)
  | getErr (e : Err)
  | feedErr (c : Conn) (code : Nat)
  | blockedSem
deriving DecidableEq, Repr

/-- Post-state, resolution and emitted external calls of one `StartTapFeed`. -/
structure TapOut where
  state : PoolState
  outcome : TapOutcome
  effects : List Effect
deriving DecidableEq, Repr

/-- Body of `StartTapFeed` after the nil check: `cp.Get()` (one branch of
`getStep`), propagating its error unchanged; on success `<-cp.createsem`
(blocking when no token is held) and then `mc.StartTapFeed(*args)`, whose
result is returned as is — the connection is neither closed nor re-queued. -/
def tapStep (s : PoolState) (br : GetBranch) (feed : FeedResult) : TapOut :=
  let g := getStep s br
  match g.result with
  | .err e => ⟨g.state, .getErr e, g.effects⟩
  | .ok c =>
    if g.state.createsem = 0 then
      ⟨g.state, .blockedSem, g.effects⟩
    else
      let s2 := { g.state with createsem := g.state.createsem - 1 }
      match feed with
      | .ok => ⟨s2, .ok c, g.effects ++ [.feedStart c]⟩
      | .fail e => ⟨s2, .feedErr c e, g.effects ++ [.feedStart c]⟩

/-- `StartTapFeed` including the `cp == nil` guard. -/
def startTapFeed (cp : Option PoolState) (br : GetBranch) (feed : FeedResult) :
    Option PoolState × TapOutcome × List Effect :=
  match cp with
  | none => (none, .getErr .noPool, [])
  | some s =>
    let o := tapStep s br feed
    (some o.state, o.outcome, o.effects)

/-!  Trace semantics: a pool together with the connections currently checked
out by callers and those detached to feed consumers, driven by an arbitrary
interleaving of client operations. -/

/-- A pool plus the connections held by its clients: `checkedOut` are live
connections acquired and not yet returned or detached, `detached` are live
connections handed to feed consumers (their token already released). -/
structure SimState where
  pool : PoolState
  checkedOut : List Conn
  detached : List Conn
deriving DecidableEq, Repr

/-- One client operation against the pool. -/
inductive Op where
  | acquire (br : GetBranch)
  | giveBack (c : Conn)
  | tap (br : GetBranch) (feed : FeedResult)
  | closeOp
deriving DecidableEq, Repr

/-- One atomic client operation: `none` when the chosen select branch is not
ready, the returned connection was never checked out, or the operation would
block forever on `<-cp.createsem`. -/
def simStep (s : SimState) (op : Op) : Option SimState :=
  match op with
  | .acquire br =>
    if getBranchEnabled s.pool br then
      let g := getStep s.pool br
      match g.result with
      | .ok c => some ⟨g.state, c :: s.checkedOut, s.detached⟩
      | .err _ => some ⟨g.state, s.checkedOut, s.detached⟩
    else none
  | .giveBack c =>
    if c ∈ s.checkedOut then
      let r := returnStep s.pool c
      if r.action = .blockedSem then none
      else some ⟨r.state, s.checkedOut.erase c, s.detached⟩
    else none
  | .tap br feed =>
    if getBranchEnabled s.pool br then
      let t := tapStep s.pool br feed
      match t.outcome with
      | .ok c => some ⟨t.state, s.checkedOut, c :: s.detached⟩
      | .feedErr c _ => some ⟨t.state, s.checkedOut, c :: s.detached⟩
      | .getErr _ => some ⟨t.state, s.checkedOut, s.detached⟩
      | .blockedSem => none
    else none
  | .closeOp =>
    some ⟨(closePool s.pool).state, s.checkedOut, s.detached⟩

/-- The initial client view of a freshly constructed pool. -/
def initSim (host : String) (ps po : Nat) : SimState :=
  ⟨newConnectionPool host ps po, [], []⟩

/-- States reachable from a fresh pool by any sequence of client operations. -/
inductive Reachable (host : String) (ps po : Nat) : SimState → Prop where
  | init : Reachable host ps po (initSim host ps po)
  | next {s s' : SimState} {op : Op} :
      Reachable host ps po s → simStep s op = some s' → Reachable host ps po s'

/-- The inductive invariant: channel capacities are the construction
parameters, every queued or checked-out connection holds a capacity token,
and the token count is bounded by the semaphore's buffer capacity. -/
def Inv (ps po : Nat) (s : SimState) : Prop :=
  s.pool.poolSize = ps ∧ s.pool.poolOverflow = po ∧
  s.pool.connections.length + s.checkedOut.length ≤ s.pool.createsem ∧
  s.pool.createsem ≤ ps + po

/-- `Return` leaves the pool unchanged, appends the connection to the queue,
or consumes one held token (in which case one was held). -/
theorem returnStep_state (s : PoolState) (c : Conn) :
    (returnStep s c).state = s
  ∨ (returnStep s c).state = { s with connections := s.connections ++ [c] }
  ∨ ((returnStep s c).state = { s with createsem := s.createsem - 1 } ∧ 1 ≤ s.createsem) := by
  unfold returnStep
  split_ifs with hh h1 h2 h3 h4 <;>
    first
      | exact Or.inl rfl
      | exact Or.inr (Or.inl rfl)
      | exact Or.inr (Or.inr ⟨rfl, by omega⟩)

/-- One enabled step preserves the inductive invariant. -/
theorem inv_step {ps po : Nat} {s s' : SimState} {op : Op}
    (hI : Inv ps po s) (h : simStep s op = some s') : Inv ps po s' := by
  obtain ⟨h1, h2, h3, h4⟩ := hI
  cases op with
  | acquire br =>
    simp only [simStep] at h
    split at h
    case isFalse => simp at h
    case isTrue hen =>
      cases br with
      | fastRecv | slowRecv =>
        rcases hc : s.pool.connections with _ | ⟨c, rest⟩ <;>
          simp only [getStep, hc] at h <;>
          injection h with h <;> subst h
        · exact ⟨h1, h2, le_trans (by simp) h3, h4⟩
        · rw [hc] at h3; simp at h3
          refine ⟨h1, h2, ?_, h4⟩
          simp; omega
      | slowCreate fr =>
        simp only [getBranchEnabled, decide_eq_true_eq] at hen
        cases fr with
        | ok c =>
          simp only [getStep] at h
          injection h with h; subst h
          refine ⟨h1, h2, ?_, ?_⟩ <;> simp <;> omega
        | fail e =>
          simp only [getStep] at h
          injection h with h; subst h
          refine ⟨h1, h2, ?_, ?_⟩ <;> simp <;> omega
      | slowTimeout =>
        simp only [getStep] at h
        injection h with h; subst h
        exact ⟨h1, h2, h3, h4⟩
  | giveBack c =>
    simp only [simStep] at h
    split at h
    case isFalse => simp at h
    case isTrue hmem =>
      split at h
      case isTrue => simp at h
      case isFalse =>
        injection h with h; subst h
        have hk : 1 ≤ s.checkedOut.length := List.length_pos.mpr (List.ne_nil_of_mem hmem)
        have herase : (s.checkedOut.erase c).length = s.checkedOut.length - 1 :=
          List.length_erase_of_mem hmem
        rcases returnStep_state s.pool c with hs | hs | ⟨hs, hsem⟩ <;>
          rw [hs] <;> refine ⟨h1, h2, ?_, ?_⟩ <;> simp [herase] <;> omega
  | tap br feed =>
    simp only [simStep] at h
    split at h
    case isFalse => simp at h
    case isTrue hen =>
      cases br with
      | fastRecv | slowRecv =>
        rcases hc : s.pool.connections with _ | ⟨c, rest⟩
        · simp only [tapStep, getStep, hc] at h
          injection h with h; subst h
          exact ⟨h1, h2, le_trans (by simp) h3, h4⟩
        · rw [hc] at h3; simp at h3
          have hz : ¬ (({ s.pool with connections := rest } : PoolState).createsem = 0) := by
            simp; omega
          cases feed <;>
            simp only [tapStep, getStep, hc, if_neg hz] at h <;>
            injection h with h <;> subst h <;>
            refine ⟨h1, h2, ?_, ?_⟩ <;> simp <;> omega
      | slowCreate fr =>
        simp only [getBranchEnabled, decide_eq_true_eq] at hen
        cases fr with
        | ok c =>
          have hz : ¬ (({ s.pool with
              createsem := s.pool.createsem + 1 } : PoolState).createsem = 0) := by
            simp
          cases feed <;>
            simp only [tapStep, getStep, if_neg hz] at h <;>
            injection h with h <;> subst h <;>
            refine ⟨h1, h2, ?_, ?_⟩ <;> simp <;> omega
        | fail e =>
          simp only [tapStep, getStep] at h
          injection h with h; subst h
          refine ⟨h1, h2, ?_, ?_⟩ <;> simp <;> omega
      | slowTimeout =>
        simp only [tapStep, getStep] at h
        injection h with h; subst h
        exact ⟨h1, h2, h3, h4⟩
  | closeOp =>
    simp only [simStep] at h
    injection h with h; subst h
    unfold closePool
    split_ifs <;> refine ⟨h1, h2, ?_, h4⟩ <;> simp <;> omega

/-- Every reachable state satisfies the inductive invariant. -/
theorem reachable_inv {host : String} {ps po : Nat} {s : SimState}
    (h : Reachable host ps po s) : Inv ps po s := by
  induction h with
  | init => exact ⟨rfl, rfl, by simp [initSim, newConnectionPool], by simp [initSim, newConnectionPool]⟩
  | next _ hstep ih => exact inv_step ih hstep

/-- C1: for every sequence of acquire (`GetWithTimeout`/`Get`), `Return`,
`StartTapFeed` (and `Close`) operations on a pool constructed with parameters
`poolSize` and `poolOverflow`, the number of simultaneously live connections
under pool accounting — queued plus checked out; a detached-but-not-yet-released
connection never exists between operations, because `StartTapFeed` releases the
token in the same atomic step that detaches the connection — never exceeds
`poolSize + poolOverflow`. -/
theorem capacity_invariant {host : String} {ps po : Nat} {s : SimState}
    (h : Reachable host ps po s) :
    s.pool.connections.length + s.checkedOut.length ≤ ps + po := by
  obtain ⟨_, _, h3, h4⟩ := reachable_inv h
  omega

/-- C1 witness: after one successful slow-path creation on a pool with
`poolSize = 2`, `poolOverflow = 1`, one connection is live and `1 ≤ 3`. -/
theorem capacity_invariant_witness :
    Reachable "h" 2 1 ⟨⟨"h", 2, 1, [], false, 1⟩, [⟨0, true⟩], []⟩ ∧
    (⟨⟨"h", 2, 1, [], false, 1⟩, [⟨0, true⟩], []⟩ : SimState).pool.connections.length +
      (⟨⟨"h", 2, 1, [], false, 1⟩, [⟨0, true⟩], []⟩ : SimState).checkedOut.length ≤ 2 + 1 := by
  have hr : Reachable "h" 2 1 ⟨⟨"h", 2, 1, [], false, 1⟩, [⟨0, true⟩], []⟩ :=
    @Reachable.next "h" 2 1 (initSim "h" 2 1) ⟨⟨"h", 2, 1, [], false, 1⟩, [⟨0, true⟩], []⟩
      (Op.acquire (GetBranch.slowCreate (FactoryResult.ok ⟨0, true⟩))) Reachable.init rfl
  exact ⟨hr, capacity_invariant hr⟩

/-- C8: for every connection previously checked out of a reachable pool,
`Return` never resolves to the blocking receive on an empty `createsem`
(every branch — enqueue, overflow retirement, unhealthy retirement,
closed-pool recovery — completes; queue insertion itself is a non-blocking
select with a default branch). -/
theorem return_nonblocking {host : String} {ps po : Nat} {s : SimState} {c : Conn}
    (hr : Reachable host ps po s) (hc : c ∈ s.checkedOut) :
    (returnStep s.pool c).action ≠ RetAction.blockedSem := by
  obtain ⟨_, _, h3, _⟩ := reachable_inv hr
  have hk : 1 ≤ s.checkedOut.length := List.length_pos.mpr (List.ne_nil_of_mem hc)
  have hsem : 1 ≤ s.pool.createsem := by omega
  unfold returnStep
  split_ifs <;> simp <;> omega

/-- C8 witness: a checked-out connection of a concrete reachable pool state is
returned without blocking. -/
theorem return_nonblocking_witness :
    Reachable "h" 1 0 ⟨⟨"h", 1, 0, [], false, 1⟩, [⟨5, false⟩], []⟩ ∧
    (⟨5, false⟩ : Conn) ∈ ([⟨5, false⟩] : List Conn) ∧
    (returnStep ⟨"h", 1, 0, [], false, 1⟩ ⟨5, false⟩).action ≠ RetAction.blockedSem := by
  have hr : Reachable "h" 1 0 ⟨⟨"h", 1, 0, [], false, 1⟩, [⟨5, false⟩], []⟩ :=
    @Reachable.next "h" 1 0 (initSim "h" 1 0) ⟨⟨"h", 1, 0, [], false, 1⟩, [⟨5, false⟩], []⟩
      (Op.acquire (GetBranch.slowCreate (FactoryResult.ok ⟨5, false⟩))) Reachable.init rfl
  exact ⟨hr, by simp, return_nonblocking hr (by simp)⟩

/-- C2 counterexample: `Return` of a healthy connection to a closed pool
destroys the connection — `c.Close()` runs in the recovered-panic handler —
yet releases no capacity-token slot: `createsem` stays at 2.  The handler
deliberately skips `<-cp.createsem`, so this connection-destroying path frees
no slot, refuting the claim that every such path releases exactly one. -/
theorem slot_release_counterexample :
    (returnStep ⟨"h", 2, 1, [], true, 2⟩ ⟨7, true⟩).state.createsem = 2 ∧
    Effect.closeConn ⟨7, true⟩ ∈ (returnStep ⟨"h", 2, 1, [], true, 2⟩ ⟨7, true⟩).effects ∧
    (returnStep ⟨"h", 2, 1, [], true, 2⟩ ⟨7, true⟩).action = RetAction.closedPanic := by
  decide

/-- C2 amended: factory failure inside `GetWithTimeout` nets zero reservation
(the just-acquired slot is released); unhealthy and overflow retirement in
`Return` each release exactly one slot while closing the connection; but a
`Return` of a healthy connection after the pool was closed closes the
connection without releasing its slot. -/
theorem slot_accounting (s : PoolState) (c : Conn) (e : Nat) (hsem : 1 ≤ s.createsem) :
    (getStep s (.slowCreate (.fail e))).state.createsem = s.createsem
  ∧ (c.healthy = false → (returnStep s c).state.createsem + 1 = s.createsem
       ∧ Effect.closeConn c ∈ (returnStep s c).effects)
  ∧ (c.healthy = true → s.connClosed = false → s.poolSize ≤ s.connections.length →
       (returnStep s c).state.createsem + 1 = s.createsem
       ∧ Effect.closeConn c ∈ (returnStep s c).effects)
  ∧ (c.healthy = true → s.connClosed = true →
       (returnStep s c).state.createsem = s.createsem
       ∧ Effect.closeConn c ∈ (returnStep s c).effects) := by
  refine ⟨by simp [getStep], ?_, ?_, ?_⟩
  · intro hh
    rw [returnStep, if_neg (by simp [hh]), if_neg (by omega)]
    exact ⟨by simp; omega, by simp⟩
  · intro hh hcl hlen
    rw [returnStep, if_pos hh, if_neg (by simp [hcl]), if_neg (by omega), if_neg (by omega)]
    exact ⟨by simp; omega, by simp⟩
  · intro hh hcl
    rw [returnStep, if_pos hh, if_pos hcl]
    exact ⟨rfl, by simp⟩

/-- C2 amended witness: a healthy connection returned to a concrete closed
pool is closed while `createsem` stays at 1. -/
theorem slot_accounting_witness :
    (1 ≤ (1 : Nat)) ∧
    ((getStep ⟨"h", 0, 1, [], true, 1⟩ (GetBranch.slowCreate (FactoryResult.fail 9))).state.createsem = 1
  ∧ ((true : Bool) = false → (returnStep ⟨"h", 0, 1, [], true, 1⟩ ⟨3, true⟩).state.createsem + 1 = 1
       ∧ Effect.closeConn ⟨3, true⟩ ∈ (returnStep ⟨"h", 0, 1, [], true, 1⟩ ⟨3, true⟩).effects)
  ∧ ((true : Bool) = true → (⟨"h", 0, 1, [], true, 1⟩ : PoolState).connClosed = false →
       0 ≤ ([] : List Conn).length →
       (returnStep ⟨"h", 0, 1, [], true, 1⟩ ⟨3, true⟩).state.createsem + 1 = 1
       ∧ Effect.closeConn ⟨3, true⟩ ∈ (returnStep ⟨"h", 0, 1, [], true, 1⟩ ⟨3, true⟩).effects)
  ∧ ((true : Bool) = true → (⟨"h", 0, 1, [], true, 1⟩ : PoolState).connClosed = true →
       (returnStep ⟨"h", 0, 1, [], true, 1⟩ ⟨3, true⟩).state.createsem = 1
       ∧ Effect.closeConn ⟨3, true⟩ ∈ (returnStep ⟨"h", 0, 1, [], true, 1⟩ ⟨3, true⟩).effects)) :=
  ⟨by decide, slot_accounting ⟨"h", 0, 1, [], true, 1⟩ ⟨3, true⟩ 9 (by decide)⟩

/-- C3: in the slow path, when the send on `createsem` wins (a token slot is
acquired, possible only while `createsem` has room) the factory runs
synchronously: on failure the just-acquired slot is released again and the
factory's error is returned unchanged; on success the newly built connection
is returned and the token stays held. -/
theorem slow_path_factory (s : PoolState) (c : Conn) (e : Nat)
    (_hen : getBranchEnabled s (.slowCreate (.fail e)) = true) :
    getStep s (.slowCreate (.fail e)) = ⟨s, .err (.factory e), [.factoryCall]⟩
  ∧ getStep s (.slowCreate (.ok c)) =
      ⟨{ s with createsem := s.createsem + 1 }, .ok c, [.factoryCall]⟩ := by
  exact ⟨by simp [getStep], rfl⟩

/-- C3 witness: on a concrete empty pool the failing factory leaves the state
unchanged and its error code 4 is propagated; the succeeding factory holds
the token. -/
theorem slow_path_factory_witness :
    getBranchEnabled ⟨"h", 1, 1, [], false, 0⟩ (GetBranch.slowCreate (FactoryResult.fail 4)) = true ∧
    (getStep ⟨"h", 1, 1, [], false, 0⟩ (GetBranch.slowCreate (FactoryResult.fail 4)) =
        ⟨⟨"h", 1, 1, [], false, 0⟩, .err (.factory 4), [.factoryCall]⟩
     ∧ getStep ⟨"h", 1, 1, [], false, 0⟩ (GetBranch.slowCreate (FactoryResult.ok ⟨2, true⟩)) =
        ⟨⟨"h", 1, 1, [], false, 1⟩, .ok ⟨2, true⟩, [.factoryCall]⟩) :=
  ⟨by decide, slow_path_factory ⟨"h", 1, 1, [], false, 0⟩ ⟨2, true⟩ 4 (by decide)⟩

/-- C4: `Return` retires rather than enqueues in exactly two cases: an
unhealthy connection releases one token slot and is closed, never enqueued; a
healthy connection returned while the ready-queue already holds `poolSize`
entries releases one token slot and is closed, the queue staying at
`poolSize`; a healthy connection with queue room is enqueued and its token
stays held. -/
theorem return_policy (s : PoolState) (c : Conn)
    (hsem : 1 ≤ s.createsem) (hopen : s.connClosed = false) :
    (c.healthy = false →
       returnStep s c = ⟨{ s with createsem := s.createsem - 1 }, .retiredUnhealthy,
         [.healthCheck c, .closeConn c]⟩)
  ∧ (c.healthy = true → s.connections.length = s.poolSize →
       returnStep s c = ⟨{ s with createsem := s.createsem - 1 }, .retiredOverflow,
         [.healthCheck c, .closeConn c]⟩
       ∧ (returnStep s c).state.connections.length = s.poolSize)
  ∧ (c.healthy = true → s.connections.length < s.poolSize →
       returnStep s c = ⟨{ s with connections := s.connections ++ [c] }, .enqueued,
         [.healthCheck c]⟩) := by
  refine ⟨?_, ?_, ?_⟩
  · intro hh
    rw [returnStep, if_neg (by simp [hh]), if_neg (by omega)]
  · intro hh hlen
    rw [returnStep, if_pos hh, if_neg (by simp [hopen]), if_neg (by omega), if_neg (by omega)]
    exact ⟨rfl, by simpa using hlen⟩
  · intro hh hlt
    rw [returnStep, if_pos hh, if_neg (by simp [hopen]), if_pos hlt]

/-- C4 witness: with `poolSize = 1` and the queue already holding one
connection, returning a healthy connection retires it and leaves the queue
untouched. -/
theorem return_policy_witness :
    (1 ≤ (2 : Nat)) ∧ ((false : Bool) = false) ∧
    (((true : Bool) = false → returnStep ⟨"h", 1, 0, [⟨9, true⟩], false, 2⟩ ⟨4, true⟩ =
        ⟨⟨"h", 1, 0, [⟨9, true⟩], false, 1⟩, .retiredUnhealthy,
          [.healthCheck ⟨4, true⟩, .closeConn ⟨4, true⟩]⟩)
   ∧ ((true : Bool) = true → (1 : Nat) = 1 →
        returnStep ⟨"h", 1, 0, [⟨9, true⟩], false, 2⟩ ⟨4, true⟩ =
          ⟨⟨"h", 1, 0, [⟨9, true⟩], false, 1⟩, .retiredOverflow,
            [.healthCheck ⟨4, true⟩, .closeConn ⟨4, true⟩]⟩
        ∧ (returnStep ⟨"h", 1, 0, [⟨9, true⟩], false, 2⟩ ⟨4, true⟩).state.connections.length = 1)
   ∧ ((true : Bool) = true → (1 : Nat) < 1 →
        returnStep ⟨"h", 1, 0, [⟨9, true⟩], false, 2⟩ ⟨4, true⟩ =
          ⟨⟨"h", 1, 0, [⟨9, true⟩, ⟨4, true⟩], false, 2⟩, .enqueued, [.healthCheck ⟨4, true⟩]⟩)) :=
  ⟨by decide, by decide,
    return_policy ⟨"h", 1, 0, [⟨9, true⟩], false, 2⟩ ⟨4, true⟩ (by decide) (by decide)⟩

/-- No branch of `GetWithTimeout` ever calls `Close` on a connection. -/
theorem getStep_no_close (s : PoolState) (br : GetBranch) (d : Conn) :
    Effect.closeConn d ∉ (getStep s br).effects := by
  cases br with
  | fastRecv | slowRecv =>
    rcases hc : s.connections with _ | ⟨c, rest⟩ <;> simp [getStep, hc]
  | slowCreate fr => cases fr <;> simp [getStep]
  | slowTimeout => simp [getStep]

/-- No branch of `GetWithTimeout` ever calls `IsHealthy` on a connection. -/
theorem getStep_no_healthCheck (s : PoolState) (br : GetBranch) (d : Conn) :
    Effect.healthCheck d ∉ (getStep s br).effects := by
  cases br with
  | fastRecv | slowRecv =>
    rcases hc : s.connections with _ | ⟨c, rest⟩ <;> simp [getStep, hc]
  | slowCreate fr => cases fr <;> simp [getStep]
  | slowTimeout => simp [getStep]

/-- `StartTapFeed` never calls `IsHealthy` either. -/
theorem tapStep_no_healthCheck (s : PoolState) (br : GetBranch) (feed : FeedResult) (d : Conn) :
    Effect.healthCheck d ∉ (tapStep s br feed).effects := by
  have hg := getStep_no_healthCheck s br d
  rcases hres : (getStep s br).result with c | e
  · simp only [tapStep, hres]
    split
    · exact hg
    · cases feed <;> simp [hg]
  · simp only [tapStep, hres]
    exact hg

/-- C5: `Close` closes the ready-queue to new entries, removes every idle
connection remaining in it and closes each; a second `Close` only trips the
recovered panic — no crash, no state change; and after the close either
receive branch of a waiting or subsequent `GetWithTimeout` is ready and
returns the closed-pool error rather than a connection or a wait until the
full timeout. -/
theorem close_semantics (s : PoolState) (hopen : s.connClosed = false) :
    closePool s = ⟨{ s with connClosed := true, connections := [] },
        s.connections.map (fun c => .closeConn c), false⟩
  ∧ closePool (closePool s).state = ⟨(closePool s).state, [], true⟩
  ∧ (∀ br, br = GetBranch.fastRecv ∨ br = GetBranch.slowRecv →
      getStep (closePool s).state br = ⟨(closePool s).state, .err .closedPool, []⟩)
  ∧ getBranchEnabled (closePool s).state GetBranch.slowRecv = true := by
  have h1 : closePool s = ⟨{ s with connClosed := true, connections := [] },
      s.connections.map (fun c => .closeConn c), false⟩ := by
    rw [closePool, if_neg (by simp [hopen])]
  refine ⟨h1, ?_, ?_, ?_⟩
  · rw [h1]; rfl
  · intro br hbr
    rcases hbr with rfl | rfl <;> rw [h1] <;> rfl
  · rw [h1]; rfl

/-- C5 witness: closing a concrete one-connection pool drains and closes that
connection, a second close only reports the recovered panic, and a
`GetWithTimeout` receive on the closed pool returns the closed-pool error. -/
theorem close_semantics_witness :
    ((⟨"h", 1, 0, [⟨2, false⟩], false, 1⟩ : PoolState).connClosed = false) ∧
    (closePool ⟨"h", 1, 0, [⟨2, false⟩], false, 1⟩ =
      ⟨⟨"h", 1, 0, [], true, 1⟩, [.closeConn ⟨2, false⟩], false⟩) ∧
    (closePool (closePool ⟨"h", 1, 0, [⟨2, false⟩], false, 1⟩).state =
      ⟨(closePool ⟨"h", 1, 0, [⟨2, false⟩], false, 1⟩).state, [], true⟩) ∧
    (getStep (closePool ⟨"h", 1, 0, [⟨2, false⟩], false, 1⟩).state GetBranch.slowRecv =
      ⟨(closePool ⟨"h", 1, 0, [⟨2, false⟩], false, 1⟩).state, .err .closedPool, []⟩) ∧
    (getBranchEnabled (closePool ⟨"h", 1, 0, [⟨2, false⟩], false, 1⟩).state
      GetBranch.slowRecv = true) := by
  have h := close_semantics ⟨"h", 1, 0, [⟨2, false⟩], false, 1⟩ (by decide)
  exact ⟨by decide, h.1, h.2.1, h.2.2.1 GetBranch.slowRecv (Or.inr rfl), h.2.2.2⟩

/-- C6: `StartTapFeed` acquires through the same branch body as `Get`; on
acquisition success it releases exactly one capacity-token slot relative to
the post-acquisition state, enqueues nothing and closes nothing, leaving the
connection open for the feed consumer; on acquisition failure it returns the
very same error with the post-acquisition state untouched — no extra
release. -/
theorem tap_accounting (s : PoolState) (br : GetBranch) (feed : FeedResult) :
    (∀ c, (getStep s br).result = .ok c → 1 ≤ (getStep s br).state.createsem →
       (tapStep s br feed).state =
           { (getStep s br).state with createsem := (getStep s br).state.createsem - 1 }
       ∧ (tapStep s br feed).state.connections = (getStep s br).state.connections
       ∧ Effect.closeConn c ∉ (tapStep s br feed).effects)
  ∧ (∀ e, (getStep s br).result = .err e →
       (tapStep s br feed).outcome = .getErr e
       ∧ (tapStep s br feed).state = (getStep s br).state) := by
  constructor
  · intro c hres hsem
    simp only [tapStep, hres]
    rw [if_neg (by omega)]
    have hg := getStep_no_close s br c
    cases feed <;> refine ⟨?_, ?_, ?_⟩ <;> first | rfl | trivial | simp [hg]
  · intro e hres
    simp only [tapStep, hres]
    refine ⟨?_, ?_⟩ <;> first | rfl | trivial

/-- C6 witness: a tap feed over a concrete one-connection pool detaches the
queued connection and drops `createsem` from 1 to 0 without closing it. -/
theorem tap_accounting_witness :
    ((getStep ⟨"h", 1, 0, [⟨8, true⟩], false, 1⟩ GetBranch.fastRecv).result = .ok ⟨8, true⟩) ∧
    (1 ≤ (getStep ⟨"h", 1, 0, [⟨8, true⟩], false, 1⟩ GetBranch.fastRecv).state.createsem) ∧
    ((tapStep ⟨"h", 1, 0, [⟨8, true⟩], false, 1⟩ GetBranch.fastRecv FeedResult.ok).state =
        ⟨"h", 1, 0, [], false, 0⟩
     ∧ (tapStep ⟨"h", 1, 0, [⟨8, true⟩], false, 1⟩ GetBranch.fastRecv
          FeedResult.ok).state.connections = []
     ∧ Effect.closeConn ⟨8, true⟩ ∉
        (tapStep ⟨"h", 1, 0, [⟨8, true⟩], false, 1⟩ GetBranch.fastRecv FeedResult.ok).effects) := by
  have h := tap_accounting ⟨"h", 1, 0, [⟨8, true⟩], false, 1⟩ GetBranch.fastRecv FeedResult.ok
  exact ⟨rfl, by decide, h.1 ⟨8, true⟩ rfl (by decide)⟩

/-- C7: `GetWithTimeout` or `StartTapFeed` on an absent (nil) pool reference
fails immediately with the distinct no-pool error (the guard runs before any
channel wait, so nothing blocks or crashes); `Return` with an absent pool
reference or an absent connection is a no-op that changes no pool state and
calls nothing. -/
theorem nil_handling (cp : Option PoolState) (c : Option Conn)
    (br : GetBranch) (feed : FeedResult) :
    getWithTimeout none br = (none, .err .noPool, [])
  ∧ startTapFeed none br feed = (none, .getErr .noPool, [])
  ∧ returnConn none c = (none, [])
  ∧ returnConn cp none = (cp, []) := by
  refine ⟨rfl, rfl, ?_, ?_⟩
  · cases c <;> rfl
  · cases cp <;> rfl

/-- C9: a connection handed out by `GetWithTimeout` — fast path or slow-path
reuse — is returned without its liveness check ever being invoked: no branch
of `GetWithTimeout`, `Close` or `StartTapFeed` emits an `IsHealthy` call,
while `Return` invokes it first on every non-nil connection. -/
theorem liveness_checked_only_on_return (s : PoolState) (c d : Conn)
    (br : GetBranch) (feed : FeedResult) :
    Effect.healthCheck d ∉ (getStep s br).effects
  ∧ Effect.healthCheck d ∉ (closePool s).effects
  ∧ Effect.healthCheck d ∉ (tapStep s br feed).effects
  ∧ (returnStep s c).effects.head? = some (.healthCheck c) := by
  refine ⟨getStep_no_healthCheck s br d, ?_, tapStep_no_healthCheck s br feed d, ?_⟩
  · unfold closePool
    split_ifs <;> simp
  · unfold returnStep
    split_ifs <;> rfl

/-- C10: `StartTapFeed` releases the capacity-token slot after acquisition
succeeds and before attempting the feed-start call, so on feed-start failure
the error is returned with the slot already freed and the connection left
open — neither closed nor placed back in the ready-queue. -/
theorem tap_feed_failure (s : PoolState) (br : GetBranch) (c : Conn) (e : Nat)
    (hok : (getStep s br).result = .ok c)
    (hsem : 1 ≤ (getStep s br).state.createsem) :
    (tapStep s br (.fail e)).outcome = .feedErr c e
  ∧ (tapStep s br (.fail e)).state =
      { (getStep s br).state with createsem := (getStep s br).state.createsem - 1 }
  ∧ Effect.closeConn c ∉ (tapStep s br (.fail e)).effects
  ∧ (tapStep s br (.fail e)).state.connections = (getStep s br).state.connections := by
  simp only [tapStep, hok]
  rw [if_neg (by omega)]
  exact ⟨rfl, rfl, by simp [getStep_no_close s br c], rfl⟩

/-- C10 witness: on a concrete empty pool, a slow-path creation followed by a
failing feed start returns error code 5 with `createsem` already back at 0
and the new connection not closed. -/
theorem tap_feed_failure_witness :
    ((getStep ⟨"h", 0, 1, [], false, 0⟩
        (GetBranch.slowCreate (FactoryResult.ok ⟨6, true⟩))).result = .ok ⟨6, true⟩) ∧
    (1 ≤ (getStep ⟨"h", 0, 1, [], false, 0⟩
        (GetBranch.slowCreate (FactoryResult.ok ⟨6, true⟩))).state.createsem) ∧
    ((tapStep ⟨"h", 0, 1, [], false, 0⟩ (GetBranch.slowCreate (FactoryResult.ok ⟨6, true⟩))
        (FeedResult.fail 5)).outcome = .feedErr ⟨6, true⟩ 5
     ∧ (tapStep ⟨"h", 0, 1, [], false, 0⟩ (GetBranch.slowCreate (FactoryResult.ok ⟨6, true⟩))
        (FeedResult.fail 5)).state = ⟨"h", 0, 1, [], false, 0⟩
     ∧ Effect.closeConn ⟨6, true⟩ ∉
        (tapStep ⟨"h", 0, 1, [], false, 0⟩ (GetBranch.slowCreate (FactoryResult.ok ⟨6, true⟩))
          (FeedResult.fail 5)).effects
     ∧ (tapStep ⟨"h", 0, 1, [], false, 0⟩ (GetBranch.slowCreate (FactoryResult.ok ⟨6, true⟩))
        (FeedResult.fail 5)).state.connections = []) :=
  ⟨rfl, by decide,
    tap_feed_failure ⟨"h", 0, 1, [], false, 0⟩
      (GetBranch.slowCreate (FactoryResult.ok ⟨6, true⟩)) ⟨6, true⟩ 5 rfl (by decide)⟩

end ConnPool
